import Mathlib

/-!
Shallow embedding of `chainer/functions/connection/deconvolution_2d.py`
(class `Deconvolution2DFunction` and its helpers), together with proofs
about the forward CPU path, the grouped path, the type check, the
cover-all resolver and the backward dispatch.

Tensors are modelled as shape-annotated total functions into `ℤ`
(exact arithmetic abstracts the floating-point element values; the
element *type* is tracked separately by a `DType` tag because the code
manipulates dtypes explicitly).  External collaborators of the module
(`chainer.utils.conv`, numpy's `tensordot`/`reshape`/`concatenate`,
`chainer.functions.sum`, the plain-convolution collaborator) are not in
the source tree; the ones whose behaviour decides a claim are modelled
from the spec and are marked `Modelled from the spec:` in their doc
comments.
-/

open scoped BigOperators

/-- Element type of an array.  Only the distinctions the source makes are
modelled: floating-point kinds of three precisions (dtype.kind == 'f')
and one non-float kind. -/
inductive DType where
  | f16 : DType
  | f32 : DType
  | f64 : DType
  | int32 : DType
deriving DecidableEq, Repr

/-- `dtype.kind == 'f'` test from `check_type_forward`. -/
def DType.isFloat : DType → Bool
  | .int32 => false
  | _ => true

/-- Precision rank used by numpy type promotion. -/
def DType.prec : DType → Nat
  | .f16 => 0
  | .f32 => 1
  | .int32 => 1
  | .f64 => 2

/-- Modelled from the spec: numpy's dtype promotion (`numpy.result_type`)
restricted to the kinds above — the wider element type wins.  Used for
the dtype of `numpy.tensordot` before the source's explicit
`.astype(x.dtype, copy=False)` cast. -/
def resultType (a b : DType) : DType :=
  if b.prec ≤ a.prec then a else b

/-- A rank-4 array: shape `(n, c, h, w)`, element type tag, and the
element values as a total function (only indices below the bounds are
meaningful). -/
structure Tensor4 where
  n : Nat
  c : Nat
  h : Nat
  w : Nat
  dtype : DType
  data : Nat → Nat → Nat → Nat → ℤ

/-- A rank-6 array (the `gcol` intermediate of the deconvolution core). -/
structure Tensor6 where
  s1 : Nat
  s2 : Nat
  s3 : Nat
  s4 : Nat
  s5 : Nat
  s6 : Nat
  dtype : DType
  data : Nat → Nat → Nat → Nat → Nat → Nat → ℤ

/-- A rank-1 array (the bias vector, and the bias gradient). -/
structure Vec1 where
  len : Nat
  dtype : DType
  data : Nat → ℤ

/-- The data-model invariant on an optional bias: when present, its
length is `C_out = C_og * group` (the numpy reshape/broadcast
requirement of the two bias-consuming paths). -/
def biasLenOk (b : Option Vec1) (G yCg : Nat) : Prop :=
  match b with
  | none => True
  | some v => v.len = G * yCg

/-- When present, the bias has the given element type. -/
def biasDtypeOk (b : Option Vec1) (d : DType) : Prop :=
  match b with
  | none => True
  | some v => v.dtype = d

/-- Row-major flat element access of a rank-4 array — numpy's underlying
buffer order, used to model `reshape` (which reinterprets the same flat
buffer under new dims). -/
def Tensor4.flatGet (t : Tensor4) (i : Nat) : ℤ :=
  t.data (i / (t.c * t.h * t.w)) (i / (t.h * t.w) % t.c) (i / t.w % t.h) (i % t.w)

/-- Extensional equality of rank-4 arrays: same shape, same dtype, same
values at every in-bounds index. -/
def Tensor4.Eq (a b : Tensor4) : Prop :=
  a.n = b.n ∧ a.c = b.c ∧ a.h = b.h ∧ a.w = b.w ∧ a.dtype = b.dtype ∧
    ∀ n < a.n, ∀ c < a.c, ∀ h < a.h, ∀ w < a.w, a.data n c h w = b.data n c h w

instance (a b : Tensor4) : Decidable (Tensor4.Eq a b) := by
  unfold Tensor4.Eq
  infer_instance

/-- Modelled from the spec: `chainer.utils.conv.get_deconv_outsize`
(the Output-Size Calculator, spec section 4.1):
`outSize = stride * (inSize - 1) + (dilation*(kernelSize-1) + 1) - 2*pad`.
The result lives in `Int` because it can be non-positive (the caller
checks for that). -/
def get_deconv_outsize (size k s p d : Nat) : Int :=
  s * ((size : Int) - 1) + (d * ((k : Int) - 1) + 1) - 2 * p

/-- Modelled from the spec: `chainer.utils.conv.get_conv_outsize`, the
forward-convolution output-size formula (spec sections 4.1/4.6 and the
glossary): with effective kernel `dk = dilation*(k-1)+1`, the default
mode rounds the quotient down, `(size + 2*p - dk) // s + 1`, and the
cover-all mode rounds it up, `(size + 2*p - dk + s - 1) // s + 1`
(Python floor division, hence `Int.fdiv`). -/
def get_conv_outsize (size k s p : Nat) (cover_all : Bool) (d : Nat) : Int :=
  let dk : Int := d * ((k : Int) - 1) + 1
  if cover_all then Int.fdiv ((size : Int) + 2 * p - dk + s - 1) s + 1
  else Int.fdiv ((size : Int) + 2 * p - dk) s + 1

/-- The constructor state of `Deconvolution2DFunction`: stride, pad,
explicit outsize (if any), dilation, group. -/
structure DeconvCfg where
  sy : Nat
  sx : Nat
  ph : Nat
  pw : Nat
  outh : Option Nat
  outw : Option Nat
  dy : Nat
  dx : Nat
  group : Nat

example : get_deconv_outsize 5 10 5 5 1 = 20 := by decide
example : get_deconv_outsize 10 10 5 5 1 = 45 := by decide
example : get_conv_outsize 6 2 2 0 false 1 = 3 := by decide
example : get_conv_outsize 6 2 2 0 true 1 = 3 := by decide
example : get_deconv_outsize 6 2 2 0 1 = 12 := by decide

/-- Height half of `Deconvolution2DFunction._calc_out_size`: an
explicitly supplied `outh` is kept unchanged; otherwise it is derived
from the input and kernel heights via `get_deconv_outsize`, raising
`RuntimeError('Height in the output must be positive.')` when the
derived size is not positive (the explicit path performs no such
check). -/
def calc_outh (cfg : DeconvCfg) (x W : Tensor4) : Except String Nat :=
  match cfg.outh with
  | some oh => Except.ok oh
  | none =>
    if get_deconv_outsize x.h W.h cfg.sy cfg.ph cfg.dy ≤ 0 then
      Except.error "RuntimeError: Height in the output must be positive."
    else Except.ok (get_deconv_outsize x.h W.h cfg.sy cfg.ph cfg.dy).toNat

/-- Width half of `_calc_out_size`, the analogue of `calc_outh`. -/
def calc_outw (cfg : DeconvCfg) (x W : Tensor4) : Except String Nat :=
  match cfg.outw with
  | some ow => Except.ok ow
  | none =>
    if get_deconv_outsize x.w W.w cfg.sx cfg.pw cfg.dx ≤ 0 then
      Except.error "RuntimeError: Width in the output must be positive."
    else Except.ok (get_deconv_outsize x.w W.w cfg.sx cfg.pw cfg.dx).toNat

/-- `Deconvolution2DFunction._calc_out_size`: resolve the output height
(its error takes precedence, as in the source), then the output
width. -/
def calc_out_size (cfg : DeconvCfg) (x W : Tensor4) : Except String (Nat × Nat) :=
  match calc_outh cfg x W with
  | Except.error e => Except.error e
  | Except.ok outh =>
    match calc_outw cfg x W with
    | Except.error e => Except.error e
    | Except.ok outw => Except.ok (outh, outw)

/-- `numpy.tensordot(W, x, (0, 1))`: contracts `W`'s axis 0 (in-channels)
with `x`'s axis 1 (in-channels); the result's axes are the remaining axes
of `W` followed by the remaining axes of `x`, shape
`(C_og, kH, kW, N, H_in, W_in)`.  The operation requires `W.n = x.c`
(enforced upstream by `check_type_forward`); the shared contraction
length is written `x.c`.  The result dtype follows numpy promotion of the
two operand dtypes. -/
def tensordot01 (W x : Tensor4) : Tensor6 :=
  ⟨W.c, W.h, W.w, x.n, x.h, x.w, resultType W.dtype x.dtype,
   fun cog i j n h w => ∑ cin in Finset.range x.c, W.data cin cog i j * x.data n cin h w⟩

/-- `.astype(d, copy=False)` on a rank-6 array: retags the element type.
(The value rounding a narrowing cast performs is below the abstraction
of exact `ℤ` elements; every claim involving `astype` is about the
element type, not the rounded values.) -/
def Tensor6.astype (t : Tensor6) (d : DType) : Tensor6 :=
  { t with dtype := d }

/-- `numpy.rollaxis(gcol, 3)`: moves axis 3 to the front, turning
`(C_og, kH, kW, N, H_in, W_in)` into `(N, C_og, kH, kW, H_in, W_in)`. -/
def rollaxis3 (t : Tensor6) : Tensor6 :=
  ⟨t.s4, t.s1, t.s2, t.s3, t.s5, t.s6, t.dtype, fun n a b c h w => t.data a b c n h w⟩

/-- Modelled from the spec: `chainer.utils.conv.col2im_cpu`, the
Scatter-Accumulate Kernel (spec section 4.2).  Given `col` of shape
`(N, C_og, kH, kW, H_in, W_in)`, it adds `col[n, c, i, j, h, w]` into
`y[n, c, sy*h - ph + i*dy, sx*w - pw + j*dx]` for every in-bounds index
tuple, dropping out-of-bounds destinations; overlapping windows
accumulate.  Pointwise this makes `y[n, c, oh, ow]` the sum of all
`col[n, c, i, j, h, w]` with `sy*h + i*dy = oh + ph` and
`sx*w + j*dx = ow + pw`.  The dtype of `y` is the dtype of `col`. -/
def col2im_cpu (col : Tensor6) (sy sx ph pw outh outw dy dx : Nat) : Tensor4 :=
  ⟨col.s1, col.s2, outh, outw, col.dtype,
   fun n c oh ow =>
     ∑ i in Finset.range col.s3, ∑ j in Finset.range col.s4,
       ∑ h in Finset.range col.s5, ∑ w in Finset.range col.s6,
         if sy * h + i * dy = oh + ph ∧ sx * w + j * dx = ow + pw then
           col.data n c i j h w
         else 0⟩

/-- `y += b.reshape(1, b.size, 1, 1)`: broadcasts the bias over the batch
and spatial axes and adds in place (callers guarantee
`b.size = y.c`, the numpy broadcast requirement); the in-place `+=`
keeps `y`'s dtype. -/
def addBias (y : Tensor4) (b : Vec1) : Tensor4 :=
  { y with data := fun n c h w => y.data n c h w + b.data c }

/-- `Deconvolution2DFunction._forward_cpu_core`: tensordot, explicit cast
of the contraction result to `x.dtype`, axis roll, scatter-accumulate,
optional bias add. -/
def forward_cpu_core (cfg : DeconvCfg) (outh outw : Nat) (x W : Tensor4) (b : Option Vec1) :
    Tensor4 :=
  let gcol := ((tensordot01 W x).astype x.dtype)
  let y := col2im_cpu (rollaxis3 gcol) cfg.sy cfg.sx cfg.ph cfg.pw outh outw cfg.dy cfg.dx
  match b with
  | none => y
  | some v => addBias y v

/-- The `g`-th slice the grouped path feeds the core, as the source
builds it: `x.reshape(N, G, xCg, xH, xW)` followed by
`rollaxis(_, 1)` and indexing `[g,]`.  Reshape reinterprets the same
row-major buffer, so element `(n, c, h, w)` of the slice reads the flat
buffer of `x` at the row-major offset of `(n, g, c, h, w)` under dims
`(N, G, xCg, xH, xW)`. -/
def xSliceFlat (x : Tensor4) (G xCg g : Nat) : Tensor4 :=
  ⟨x.n, xCg, x.h, x.w, x.dtype,
   fun n c h w => x.flatGet ((((n * G + g) * xCg + c) * x.h + h) * x.w + w)⟩

/-- The `g`-th weight slice: `W.reshape(G, xCg, yCg, kH, kW)` indexed at
`[g,]`, again via the row-major flat buffer of `W`. -/
def wSliceFlat (W : Tensor4) (xCg g : Nat) : Tensor4 :=
  ⟨xCg, W.c, W.h, W.w, W.dtype,
   fun ci co i j => W.flatGet ((((g * xCg + ci) * W.c + co) * W.h + i) * W.w + j)⟩

/-- The `g`-th bias slice: `b.reshape(G, yCg)` indexed at `[g,]` (a
rank-1 reshape is a plain offset). -/
def bSlice (b : Vec1) (yCg g : Nat) : Vec1 :=
  ⟨yCg, b.dtype, fun c => b.data (g * yCg + c)⟩

/-- `Deconvolution2DFunction._forward_grouped_convolution`:
`xCg = int(xC / G)`; reshape `x`, `W` and (when present) `b` into
per-group form — numpy `reshape` raises `ValueError` exactly when the
element counts of the old and new dims differ — then run the plain core
on every group slice and `concatenate` the per-group results along the
output-channel axis in group order (element `(n, c, h, w)` of the
concatenation is element `(n, c % yCg, h, w)` of part `c / yCg`). -/
def forward_grouped_convolution (cfg : DeconvCfg) (outh outw : Nat) (x W : Tensor4)
    (b : Option Vec1) : Except String Tensor4 :=
  let G := cfg.group
  let xCg := x.c / G
  let yCg := W.c
  if x.n * x.c * x.h * x.w ≠ x.n * (G * xCg) * x.h * x.w then
    Except.error "ValueError: cannot reshape x into (N, G, xCg, xH, xW)"
  else if W.n * W.c * W.h * W.w ≠ G * xCg * (yCg * (W.h * W.w)) then
    Except.error "ValueError: cannot reshape W into (G, xCg, yCg, kH, kW)"
  else if (match b with | none => false | some v => decide (v.len ≠ G * yCg)) then
    Except.error "ValueError: cannot reshape b into (G, yCg)"
  else
    Except.ok
      ⟨x.n, G * yCg, outh, outw, x.dtype,
       fun n c h w =>
         (forward_cpu_core cfg outh outw (xSliceFlat x G xCg (c / yCg))
             (wSliceFlat W xCg (c / yCg))
             (Option.map (fun v => bSlice v yCg (c / yCg)) b)).data n (c % yCg) h w⟩

/-- `Deconvolution2DFunction.forward_cpu`: resolve the output size, then
dispatch to the grouped path when `group > 1` and to the plain core
otherwise. -/
def forward_cpu (cfg : DeconvCfg) (x W : Tensor4) (b : Option Vec1) :
    Except String Tensor4 :=
  match calc_out_size cfg x W with
  | Except.error e => Except.error e
  | Except.ok (outh, outw) =>
    if cfg.group > 1 then forward_grouped_convolution cfg outh outw x W b
    else Except.ok (forward_cpu_core cfg outh outw x W b)

/-- `True` iff `Except` holds an error. -/
def Except.isErr {ε α : Type} : Except ε α → Bool
  | Except.error _ => true
  | Except.ok _ => false

/-- Shape-and-dtype summary of one input, as seen by the type checker
(`dims` is the full dim list so rank is observable). -/
structure TypeInfo where
  dims : List Nat
  dtype : DType

/-- The `TypeInfo` of a rank-4 tensor. -/
def Tensor4.info (t : Tensor4) : TypeInfo :=
  ⟨[t.n, t.c, t.h, t.w], t.dtype⟩

/-- The `TypeInfo` of an optional rank-1 bias. -/
def biasInfo : Option Vec1 → Option TypeInfo :=
  Option.map fun v => ⟨[v.len], v.dtype⟩

/-- `Deconvolution2DFunction.check_type_forward`: both mandatory inputs
must be rank-4 floats with `x.shape[1] == W.shape[0]`; whenever an
explicit output size was supplied for an axis, the corresponding input
size must lie between `get_conv_outsize(out, k, s, p, cover_all=False)`
and `get_conv_outsize(out, k, s, p, cover_all=True)` inclusive; a bias,
when present, must be rank 1 of `x`'s dtype (the bias-length check
against `W.shape[1]` is commented out in the source and thus absent). -/
def check_type_forward (cfg : DeconvCfg) (xt wt : TypeInfo) (bt : Option TypeInfo) : Bool :=
  (xt.dtype.isFloat && wt.dtype.isFloat
    && decide (xt.dims.length = 4) && decide (wt.dims.length = 4)
    && decide (xt.dims.getD 1 0 = wt.dims.getD 0 0))
  && (match cfg.outh with
      | none => true
      | some oh =>
        decide (get_conv_outsize oh (wt.dims.getD 2 0) cfg.sy cfg.ph false cfg.dy
                  ≤ (xt.dims.getD 2 0 : Int))
        && decide ((xt.dims.getD 2 0 : Int)
                  ≤ get_conv_outsize oh (wt.dims.getD 2 0) cfg.sy cfg.ph true cfg.dy))
  && (match cfg.outw with
      | none => true
      | some ow =>
        decide (get_conv_outsize ow (wt.dims.getD 3 0) cfg.sx cfg.pw false cfg.dx
                  ≤ (xt.dims.getD 3 0 : Int))
        && decide ((xt.dims.getD 3 0 : Int)
                  ≤ get_conv_outsize ow (wt.dims.getD 3 0) cfg.sx cfg.pw true cfg.dx))
  && (match bt with
      | none => true
      | some b => decide (b.dtype = xt.dtype) && decide (b.dims.length = 1))

/-- `Deconvolution2DFunction._set_cover_all` (the Cover-all Resolver):
the flag is set iff re-running the forward-convolution size formula in
its default mode on the resolved output size fails to reproduce `x`'s
spatial size on either axis. -/
def set_cover_all (cfg : DeconvCfg) (outh outw : Nat) (x W : Tensor4) : Bool :=
  decide ((x.h : Int) ≠ get_conv_outsize outh W.h cfg.sy cfg.ph false cfg.dy)
    || decide ((x.w : Int) ≠ get_conv_outsize outw W.w cfg.sx cfg.pw false cfg.dx)

/-- The state a `Deconvolution2DFunction` instance carries into
`backward`: the configuration, the resolved output size, the two
retained inputs, and the lazily cached cover-all flag (`none` when
forward did not need it). -/
structure DeconvState where
  cfg : DeconvCfg
  outh : Nat
  outw : Nat
  x : Tensor4
  W : Tensor4
  cover_all : Option Bool

/-- Modelled from the spec: `chainer.functions.sum(gy, axis=(0, 2, 3))`
(spec section 4.3, gradB) — reduce over the batch axis and both spatial
axes, leaving a rank-1 tensor indexed by the channel axis. -/
def fsum023 (gy : Tensor4) : Vec1 :=
  ⟨gy.c, gy.dtype,
   fun c => ∑ n in Finset.range gy.n, ∑ h in Finset.range gy.h, ∑ w in Finset.range gy.w,
     gy.data n c h w⟩

/-- One entry of the list `backward` returns.  The two convolution
gradients are delegated to external collaborators
(`chainer.functions.convolution_2d` and
`convolution_2d.Convolution2DGradW`); a delegated call is represented by
the collaborator's name and the exact arguments the source passes, the
bias gradient by its computed value. -/
inductive GradOut where
  | conv2dCall (gy W : Tensor4) (sy sx ph pw : Nat) (coverAll : Bool) (dy dx group : Nat) :
      GradOut
  | convGradWCall (gy x : Tensor4) (sy sx ph pw : Nat) (coverAll : Bool) (dy dx group : Nat) :
      GradOut
  | biasGrad (v : Vec1) : GradOut

/-- `Deconvolution2DFunction.backward`: for each requested index in
order 0, 1, 2, append the corresponding gradient — the input gradient is
the plain forward convolution of `(gy, W)` with the forward stride, pad,
dilation and group and the (lazily resolved) cover-all flag; the filter
gradient is the dedicated filter-gradient primitive on `(gy, x)` with the
same resolved parameters; the bias gradient is `gy` summed over axes
`(0, 2, 3)`. -/
def backward (st : DeconvState) (indexes : List Nat) (gy : Tensor4) : List GradOut :=
  let ca := st.cover_all.getD (set_cover_all st.cfg st.outh st.outw st.x st.W)
  (if 0 ∈ indexes then
     [GradOut.conv2dCall gy st.W st.cfg.sy st.cfg.sx st.cfg.ph st.cfg.pw ca
        st.cfg.dy st.cfg.dx st.cfg.group]
   else [])
  ++ (if 1 ∈ indexes then
        [GradOut.convGradWCall gy st.x st.cfg.sy st.cfg.sx st.cfg.ph st.cfg.pw ca
           st.cfg.dy st.cfg.dx st.cfg.group]
      else [])
  ++ (if 2 ∈ indexes then [GradOut.biasGrad (fsum023 gy)] else [])

/-- The claim-side (spec-worded) channel slice of `x`: group `g` sees
input channels `g*xCg .. g*xCg + xCg - 1`. -/
def xSliceSpec (x : Tensor4) (xCg g : Nat) : Tensor4 :=
  ⟨x.n, xCg, x.h, x.w, x.dtype, fun n c h w => x.data n (g * xCg + c) h w⟩

/-- The claim-side (spec-worded) slice of `W`: group `g` sees the
`(xCg, C_og, kH, kW)` block starting at input channel `g*xCg`. -/
def wSliceSpec (W : Tensor4) (xCg g : Nat) : Tensor4 :=
  ⟨xCg, W.c, W.h, W.w, W.dtype, fun ci co i j => W.data (g * xCg + ci) co i j⟩

/-- The claim side of the grouping-equivalence claim, following the
spec's words: the concatenation, along the output-channel axis in group
order, of the `G` independent single-group forward computations applied
to the per-group channel slices of `x`, `W` and `b`. -/
def splitAndConcat (cfg : DeconvCfg) (outh outw : Nat) (x W : Tensor4) (b : Option Vec1) :
    Tensor4 :=
  let G := cfg.group
  let xCg := x.c / G
  let yCg := W.c
  ⟨x.n, G * yCg, outh, outw, x.dtype,
   fun n c h w =>
     (forward_cpu_core cfg outh outw (xSliceSpec x xCg (c / yCg)) (wSliceSpec W xCg (c / yCg))
         (Option.map (fun v => bSlice v yCg (c / yCg)) b)).data n (c % yCg) h w⟩

/-! ### Helper lemmas: decoding row-major flat indices -/

lemma flat_step_mod (q W w : Nat) (hw : w < W) : (q * W + w) % W = w := by
  rw [mul_comm, Nat.mul_add_mod, Nat.mod_eq_of_lt hw]

lemma flat_step_div (q W w : Nat) (hw : w < W) : (q * W + w) / W = q := by
  have h0 : 0 < W := Nat.lt_of_le_of_lt (Nat.zero_le w) hw
  rw [mul_comm, Nat.mul_add_div h0, Nat.div_eq_of_lt hw, Nat.add_zero]

/-- Reading a rank-4 tensor through its flat row-major buffer at the
row-major offset of an in-bounds index recovers the element. -/
lemma Tensor4.flatGet_eq (t : Tensor4) (n c h w : Nat)
    (hc : c < t.c) (hh : h < t.h) (hw : w < t.w) :
    t.flatGet (((n * t.c + c) * t.h + h) * t.w + w) = t.data n c h w := by
  have h1 : (((n * t.c + c) * t.h + h) * t.w + w) % t.w = w := flat_step_mod _ _ _ hw
  have h2 : (((n * t.c + c) * t.h + h) * t.w + w) / t.w = (n * t.c + c) * t.h + h :=
    flat_step_div _ _ _ hw
  have h3 : (((n * t.c + c) * t.h + h) * t.w + w) / (t.h * t.w) = n * t.c + c := by
    rw [mul_comm t.h t.w, ← Nat.div_div_eq_div_mul, h2, flat_step_div _ _ _ hh]
  have h4 : (((n * t.c + c) * t.h + h) * t.w + w) / (t.c * t.h * t.w) = n := by
    have : t.c * t.h * t.w = t.h * t.w * t.c := by ring
    rw [this, ← Nat.div_div_eq_div_mul, h3, flat_step_div _ _ _ hc]
  unfold Tensor4.flatGet
  rw [h1, h2, h3, h4, flat_step_mod _ _ _ hh, flat_step_mod _ _ _ hc]

/-! ### Helper lemmas: shapes of the forward paths -/

lemma forward_cpu_core_shape (cfg : DeconvCfg) (outh outw : Nat) (x W : Tensor4)
    (b : Option Vec1) :
    (forward_cpu_core cfg outh outw x W b).n = x.n ∧
    (forward_cpu_core cfg outh outw x W b).c = W.c ∧
    (forward_cpu_core cfg outh outw x W b).h = outh ∧
    (forward_cpu_core cfg outh outw x W b).w = outw ∧
    (forward_cpu_core cfg outh outw x W b).dtype = x.dtype := by
  cases b <;> exact ⟨rfl, rfl, rfl, rfl, rfl⟩

lemma calc_out_size_default (cfg : DeconvCfg) (x W : Tensor4)
    (hh : cfg.outh = none) (hw : cfg.outw = none)
    (hdh : 0 < get_deconv_outsize x.h W.h cfg.sy cfg.ph cfg.dy)
    (hdw : 0 < get_deconv_outsize x.w W.w cfg.sx cfg.pw cfg.dx) :
    calc_out_size cfg x W =
      Except.ok ((get_deconv_outsize x.h W.h cfg.sy cfg.ph cfg.dy).toNat,
        (get_deconv_outsize x.w W.w cfg.sx cfg.pw cfg.dx).toNat) := by
  have h1 : calc_outh cfg x W =
      Except.ok (get_deconv_outsize x.h W.h cfg.sy cfg.ph cfg.dy).toNat := by
    unfold calc_outh
    rw [hh, if_neg (not_le.mpr hdh)]
  have h2 : calc_outw cfg x W =
      Except.ok (get_deconv_outsize x.w W.w cfg.sx cfg.pw cfg.dx).toNat := by
    unfold calc_outw
    rw [hw, if_neg (not_le.mpr hdw)]
  unfold calc_out_size
  rw [h1, h2]

lemma calc_out_size_explicit (cfg : DeconvCfg) (x W : Tensor4) (oh ow : Nat)
    (hh : cfg.outh = some oh) (hw : cfg.outw = some ow) :
    calc_out_size cfg x W = Except.ok (oh, ow) := by
  have h1 : calc_outh cfg x W = Except.ok oh := by
    unfold calc_outh
    rw [hh]
  have h2 : calc_outw cfg x W = Except.ok ow := by
    unfold calc_outw
    rw [hw]
  unfold calc_out_size
  rw [h1, h2]

/-- When the group divides the channels (and the channel counts match,
and the bias fits), all three reshape guards of the grouped path pass
and the result is the concatenation of the per-group cores applied to
the reshaped (flat-buffer) slices. -/
lemma forward_grouped_eq (cfg : DeconvCfg) (outh outw : Nat) (x W : Tensor4)
    (b : Option Vec1)
    (hdiv : x.c % cfg.group = 0) (hWn : W.n = x.c)
    (hb : biasLenOk b cfg.group W.c) :
    forward_grouped_convolution cfg outh outw x W b =
      Except.ok ⟨x.n, cfg.group * W.c, outh, outw, x.dtype,
        fun n c h w =>
          (forward_cpu_core cfg outh outw
              (xSliceFlat x cfg.group (x.c / cfg.group) (c / W.c))
              (wSliceFlat W (x.c / cfg.group) (c / W.c))
              (Option.map (fun v => bSlice v W.c (c / W.c)) b)).data n (c % W.c) h w⟩ := by
  have hcan : cfg.group * (x.c / cfg.group) = x.c :=
    Nat.mul_div_cancel' (Nat.dvd_of_mod_eq_zero hdiv)
  unfold forward_grouped_convolution
  rw [if_neg, if_neg, if_neg]
  · cases b with
    | none => simp
    | some v =>
      simp only [decide_eq_true_eq]
      intro hne
      exact hne hb
  · intro hne
    apply hne
    have hx : x.c * W.c * W.h * W.w =
        cfg.group * (x.c / cfg.group) * (W.c * (W.h * W.w)) := by
      rw [hcan]; ring
    rw [hWn]
    exact hx
  · intro hne
    exact hne (by rw [hcan])

/-- Shape of any successful forward call: batch from `x`, channels
`C_og * group`, spatial sizes from the resolved output size, dtype from
`x`. -/
lemma forward_cpu_ok_shape (cfg : DeconvCfg) (x W : Tensor4) (b : Option Vec1)
    (outh outw : Nat)
    (hcalc : calc_out_size cfg x W = Except.ok (outh, outw))
    (hg : 1 ≤ cfg.group)
    (hdiv : x.c % cfg.group = 0) (hWn : W.n = x.c)
    (hb : biasLenOk b cfg.group W.c) :
    ∃ y, forward_cpu cfg x W b = Except.ok y ∧
      y.n = x.n ∧ y.c = W.c * cfg.group ∧ y.h = outh ∧ y.w = outw ∧ y.dtype = x.dtype := by
  unfold forward_cpu
  rw [hcalc]
  dsimp only
  by_cases hG : cfg.group > 1
  · rw [if_pos hG, forward_grouped_eq cfg outh outw x W b hdiv hWn hb]
    exact ⟨_, rfl, rfl, mul_comm _ _, rfl, rfl, rfl⟩
  · rw [if_neg hG]
    have h1 : cfg.group = 1 := by omega
    obtain ⟨e1, e2, e3, e4, e5⟩ := forward_cpu_core_shape cfg outh outw x W b
    exact ⟨_, rfl, e1, by rw [e2, h1, Nat.mul_one], e3, e4, e5⟩

/-! ### Claim C1: default output shape of the forward call -/

/-- C1.  A valid forward call without an explicit outsize returns `y` of
shape `(N, C_og*group, H_out, W_out)` with
`H_out = sy*(H_in-1) + (dy*(kH-1)+1) - 2*ph` and the width analogue —
the spatial sizes are `get_deconv_outsize` applied per axis.  Validity
comprises the data-model invariants: positive computed sizes, matching
channel counts (`W.shape[0] = C_in`), group dividing `C_in`, and a bias
(when present) of length `C_og*group`. -/
theorem deconv_forward_default_shape (cfg : DeconvCfg) (x W : Tensor4) (b : Option Vec1)
    (hh : cfg.outh = none) (hw : cfg.outw = none) (hg : 1 ≤ cfg.group)
    (hdh : 0 < get_deconv_outsize x.h W.h cfg.sy cfg.ph cfg.dy)
    (hdw : 0 < get_deconv_outsize x.w W.w cfg.sx cfg.pw cfg.dx)
    (hdiv : x.c % cfg.group = 0) (hWn : W.n = x.c)
    (hb : biasLenOk b cfg.group W.c) :
    ∃ y, forward_cpu cfg x W b = Except.ok y ∧
      y.n = x.n ∧ y.c = W.c * cfg.group ∧
      (y.h : Int) = get_deconv_outsize x.h W.h cfg.sy cfg.ph cfg.dy ∧
      (y.w : Int) = get_deconv_outsize x.w W.w cfg.sx cfg.pw cfg.dx := by
  obtain ⟨y, hy, e1, e2, e3, e4, _⟩ :=
    forward_cpu_ok_shape cfg x W b _ _ (calc_out_size_default cfg x W hh hw hdh hdw)
      hg hdiv hWn hb
  refine ⟨y, hy, e1, e2, ?_, ?_⟩
  · rw [e3, Int.toNat_of_nonneg (le_of_lt hdh)]
  · rw [e4, Int.toNat_of_nonneg (le_of_lt hdw)]

/-- C1 witness: the concrete scenario of the spec
(`N=10, C_in=1, C_out=3, H_in=5, W_in=10, k=10, stride=5, pad=5`),
whose output shape is `(10, 3, 20, 45)`. -/
theorem deconv_forward_default_shape_witness :
    ((⟨5, 5, 5, 5, none, none, 1, 1, 1⟩ : DeconvCfg).outh = none) ∧
    (0 < get_deconv_outsize 5 10 5 5 1) ∧ (0 < get_deconv_outsize 10 10 5 5 1) ∧
    (∃ y, forward_cpu ⟨5, 5, 5, 5, none, none, 1, 1, 1⟩
        ⟨10, 1, 5, 10, DType.f32, fun _ _ _ _ => 1⟩
        ⟨1, 3, 10, 10, DType.f32, fun _ _ _ _ => 1⟩
        (some ⟨3, DType.f32, fun _ => 1⟩) = Except.ok y ∧
      y.n = 10 ∧ y.c = 3 * 1 ∧
      (y.h : Int) = get_deconv_outsize 5 10 5 5 1 ∧
      (y.w : Int) = get_deconv_outsize 10 10 5 5 1) :=
  ⟨rfl, by decide, by decide,
   deconv_forward_default_shape ⟨5, 5, 5, 5, none, none, 1, 1, 1⟩
     ⟨10, 1, 5, 10, DType.f32, fun _ _ _ _ => 1⟩
     ⟨1, 3, 10, 10, DType.f32, fun _ _ _ _ => 1⟩
     (some ⟨3, DType.f32, fun _ => 1⟩)
     rfl rfl (by decide) (by decide) (by decide) (by decide) rfl rfl⟩

/-! ### Claim C5: explicit-outsize validation -/

/-- C5.  With an explicit outsize `(oh, ow)`: if on either axis the
input spatial size lies outside the inclusive range
`[get_conv_outsize(out, k, s, p, cover_all=False),
get_conv_outsize(out, k, s, p, cover_all=True)]`, the type check
rejects the call before any computation; if both sizes lie inside their
bounds, the type check passes and the forward call succeeds with
exactly the supplied spatial shape.  (The call is otherwise valid:
float dtypes, matching channels, divisible group, well-sized bias.) -/
theorem explicit_outsize_validation (cfg : DeconvCfg) (x W : Tensor4) (b : Option Vec1)
    (oh ow : Nat) (hh : cfg.outh = some oh) (hw : cfg.outw = some ow)
    (hg : 1 ≤ cfg.group) (hdiv : x.c % cfg.group = 0) (hWn : W.n = x.c)
    (hfx : x.dtype.isFloat = true) (hfw : W.dtype.isFloat = true)
    (hbd : biasDtypeOk b x.dtype) (hbl : biasLenOk b cfg.group W.c) :
    ((¬ (get_conv_outsize oh W.h cfg.sy cfg.ph false cfg.dy ≤ (x.h : Int) ∧
          (x.h : Int) ≤ get_conv_outsize oh W.h cfg.sy cfg.ph true cfg.dy) ∨
      ¬ (get_conv_outsize ow W.w cfg.sx cfg.pw false cfg.dx ≤ (x.w : Int) ∧
          (x.w : Int) ≤ get_conv_outsize ow W.w cfg.sx cfg.pw true cfg.dx)) →
      check_type_forward cfg x.info W.info (biasInfo b) = false) ∧
    ((get_conv_outsize oh W.h cfg.sy cfg.ph false cfg.dy ≤ (x.h : Int) ∧
        (x.h : Int) ≤ get_conv_outsize oh W.h cfg.sy cfg.ph true cfg.dy) →
     (get_conv_outsize ow W.w cfg.sx cfg.pw false cfg.dx ≤ (x.w : Int) ∧
        (x.w : Int) ≤ get_conv_outsize ow W.w cfg.sx cfg.pw true cfg.dx) →
      check_type_forward cfg x.info W.info (biasInfo b) = true ∧
      ∃ y, forward_cpu cfg x W b = Except.ok y ∧ y.h = oh ∧ y.w = ow) := by
  constructor
  · intro hfail
    simp only [check_type_forward, Tensor4.info, biasInfo, hh, hw, List.getD]
    rcases hfail with hf | hf
    · rcases not_and_or.mp hf with h1 | h1 <;>
        simp [h1]
    · rcases not_and_or.mp hf with h1 | h1 <;>
        simp [h1]
  · intro hbh hbw
    constructor
    · simp only [check_type_forward, Tensor4.info, biasInfo, hh, hw, List.getD]
      cases b with
      | none =>
        simp [hfx, hfw, hWn, hbh.1, hbh.2, hbw.1, hbw.2]
      | some v =>
        have hbd2 : v.dtype = x.dtype := hbd
        simp [hfx, hfw, hWn, hbh.1, hbh.2, hbw.1, hbw.2, hbd2]
    · obtain ⟨y, hy, _, _, e3, e4, _⟩ :=
        forward_cpu_ok_shape cfg x W b oh ow (calc_out_size_explicit cfg x W oh ow hh hw)
          hg hdiv hWn hbl
      exact ⟨y, hy, e3, e4⟩

/-- C5 witness: `1×1` input and kernel with explicit outsize `(1, 1)`;
both bounds are `[1, 1]`, the check passes and the output has spatial
shape `(1, 1)`. -/
theorem explicit_outsize_validation_witness :
    ((⟨1, 1, 0, 0, some 1, some 1, 1, 1, 1⟩ : DeconvCfg).outh = some 1) ∧
    (((¬ (get_conv_outsize 1 1 1 0 false 1 ≤ (1 : Int) ∧
           (1 : Int) ≤ get_conv_outsize 1 1 1 0 true 1) ∨
       ¬ (get_conv_outsize 1 1 1 0 false 1 ≤ (1 : Int) ∧
           (1 : Int) ≤ get_conv_outsize 1 1 1 0 true 1)) →
       check_type_forward ⟨1, 1, 0, 0, some 1, some 1, 1, 1, 1⟩
         (Tensor4.info ⟨1, 1, 1, 1, DType.f32, fun _ _ _ _ => 1⟩)
         (Tensor4.info ⟨1, 1, 1, 1, DType.f32, fun _ _ _ _ => 1⟩) (biasInfo none) = false) ∧
     ((get_conv_outsize 1 1 1 0 false 1 ≤ (1 : Int) ∧
         (1 : Int) ≤ get_conv_outsize 1 1 1 0 true 1) →
      (get_conv_outsize 1 1 1 0 false 1 ≤ (1 : Int) ∧
         (1 : Int) ≤ get_conv_outsize 1 1 1 0 true 1) →
       check_type_forward ⟨1, 1, 0, 0, some 1, some 1, 1, 1, 1⟩
         (Tensor4.info ⟨1, 1, 1, 1, DType.f32, fun _ _ _ _ => 1⟩)
         (Tensor4.info ⟨1, 1, 1, 1, DType.f32, fun _ _ _ _ => 1⟩) (biasInfo none) = true ∧
       ∃ y, forward_cpu ⟨1, 1, 0, 0, some 1, some 1, 1, 1, 1⟩
           ⟨1, 1, 1, 1, DType.f32, fun _ _ _ _ => 1⟩
           ⟨1, 1, 1, 1, DType.f32, fun _ _ _ _ => 1⟩ none = Except.ok y ∧
         y.h = 1 ∧ y.w = 1)) :=
  ⟨rfl,
   explicit_outsize_validation ⟨1, 1, 0, 0, some 1, some 1, 1, 1, 1⟩
     ⟨1, 1, 1, 1, DType.f32, fun _ _ _ _ => 1⟩
     ⟨1, 1, 1, 1, DType.f32, fun _ _ _ _ => 1⟩ none 1 1
     rfl rfl (by decide) (by decide) rfl rfl rfl trivial trivial⟩

/-! ### Claim C3: the input gradient is the plain forward convolution -/

/-- C3.  A backward call that requests the input gradient (index 0)
returns, as its first entry, the plain forward 2D convolution applied to
`(gradOfOutput, W)` with the forward call's stride, pad, dilation and
group, and with `cover_all` set to the resolved cover-all flag of the
pair (taken from the cache when forward already resolved it, recomputed
by the resolver otherwise). -/
theorem backward_gx_is_plain_convolution (st : DeconvState) (indexes : List Nat)
    (gy : Tensor4) (h0 : 0 ∈ indexes)
    (hca : st.cover_all = none ∨
      st.cover_all = some (set_cover_all st.cfg st.outh st.outw st.x st.W)) :
    (backward st indexes gy).head? =
      some (GradOut.conv2dCall gy st.W st.cfg.sy st.cfg.sx st.cfg.ph st.cfg.pw
        (set_cover_all st.cfg st.outh st.outw st.x st.W)
        st.cfg.dy st.cfg.dx st.cfg.group) := by
  have hc : st.cover_all.getD (set_cover_all st.cfg st.outh st.outw st.x st.W) =
      set_cover_all st.cfg st.outh st.outw st.x st.W := by
    rcases hca with h | h <;> rw [h] <;> rfl
  unfold backward
  rw [hc]
  dsimp only
  rw [if_pos h0]
  rfl

/-- C3 witness: a trivial forward/backward pair with no cached
cover-all flag and only index 0 requested. -/
theorem backward_gx_is_plain_convolution_witness :
    (0 ∈ [0]) ∧
    ((⟨⟨1, 1, 0, 0, none, none, 1, 1, 1⟩, 1, 1,
        ⟨1, 1, 1, 1, DType.f32, fun _ _ _ _ => 1⟩,
        ⟨1, 1, 1, 1, DType.f32, fun _ _ _ _ => 1⟩, none⟩ : DeconvState).cover_all = none) ∧
    (backward ⟨⟨1, 1, 0, 0, none, none, 1, 1, 1⟩, 1, 1,
        ⟨1, 1, 1, 1, DType.f32, fun _ _ _ _ => 1⟩,
        ⟨1, 1, 1, 1, DType.f32, fun _ _ _ _ => 1⟩, none⟩ [0]
        ⟨1, 1, 1, 1, DType.f32, fun _ _ _ _ => 1⟩).head? =
      some (GradOut.conv2dCall ⟨1, 1, 1, 1, DType.f32, fun _ _ _ _ => 1⟩
        ⟨1, 1, 1, 1, DType.f32, fun _ _ _ _ => 1⟩ 1 1 0 0
        (set_cover_all ⟨1, 1, 0, 0, none, none, 1, 1, 1⟩ 1 1
          ⟨1, 1, 1, 1, DType.f32, fun _ _ _ _ => 1⟩
          ⟨1, 1, 1, 1, DType.f32, fun _ _ _ _ => 1⟩) 1 1 1) :=
  ⟨List.mem_singleton.mpr rfl, rfl,
   backward_gx_is_plain_convolution
     ⟨⟨1, 1, 0, 0, none, none, 1, 1, 1⟩, 1, 1,
       ⟨1, 1, 1, 1, DType.f32, fun _ _ _ _ => 1⟩,
       ⟨1, 1, 1, 1, DType.f32, fun _ _ _ _ => 1⟩, none⟩ [0]
     ⟨1, 1, 1, 1, DType.f32, fun _ _ _ _ => 1⟩
     (List.mem_singleton.mpr rfl) (Or.inl rfl)⟩

/-! ### Claim C7: the bias gradient is the axis-(0,2,3) sum -/

/-- C7.  A backward call that requests the bias gradient (index 2)
returns, as its last entry, `gradOfOutput` summed over the batch axis
and both spatial axes, a rank-1 tensor of length `C_out` (the channel
count of `gradOfOutput`). -/
theorem backward_gb_is_sum_023 (st : DeconvState) (indexes : List Nat) (gy : Tensor4)
    (h2 : 2 ∈ indexes) :
    (backward st indexes gy).getLast? = some (GradOut.biasGrad (fsum023 gy)) ∧
    (fsum023 gy).len = gy.c := by
  refine ⟨?_, rfl⟩
  unfold backward
  by_cases h0 : 0 ∈ indexes <;> by_cases h1 : 1 ∈ indexes <;>
    simp only [h0, h1, h2, if_pos, if_neg, if_true, if_false, not_false_iff] <;> rfl

/-- C7 witness: only index 2 requested on a trivial pair. -/
theorem backward_gb_is_sum_023_witness :
    (2 ∈ [2]) ∧
    ((backward ⟨⟨1, 1, 0, 0, none, none, 1, 1, 1⟩, 1, 1,
         ⟨1, 1, 1, 1, DType.f32, fun _ _ _ _ => 1⟩,
         ⟨1, 1, 1, 1, DType.f32, fun _ _ _ _ => 1⟩, none⟩ [2]
         ⟨1, 1, 1, 1, DType.f32, fun _ _ _ _ => 1⟩).getLast? =
        some (GradOut.biasGrad (fsum023 ⟨1, 1, 1, 1, DType.f32, fun _ _ _ _ => 1⟩)) ∧
      (fsum023 ⟨1, 1, 1, 1, DType.f32, fun _ _ _ _ => 1⟩).len =
        (⟨1, 1, 1, 1, DType.f32, fun _ _ _ _ => 1⟩ : Tensor4).c) :=
  ⟨List.mem_singleton.mpr rfl,
   backward_gb_is_sum_023 ⟨⟨1, 1, 0, 0, none, none, 1, 1, 1⟩, 1, 1,
       ⟨1, 1, 1, 1, DType.f32, fun _ _ _ _ => 1⟩,
       ⟨1, 1, 1, 1, DType.f32, fun _ _ _ _ => 1⟩, none⟩ [2]
     ⟨1, 1, 1, 1, DType.f32, fun _ _ _ _ => 1⟩ (List.mem_singleton.mpr rfl)⟩

/-! ### Claim C8: group misalignment fails at split time -/

/-- C8 counterexample.  The claim states every forward call with
`G > 1` and `C_in % G != 0` fails at split time.  numpy's `reshape`
only fails when the element counts differ, so a degenerate call with an
empty batch (`N = 0`, making the `x` reshape's both counts 0) and an
empty kernel height (`kH = 0`, making the `W` reshape's both counts 0)
sails through the grouped split with `C_in = 3`, `G = 2`: the full
forward call returns a tensor instead of failing. -/
theorem group_misalignment_claim_cex :
    ((⟨0, 3, 3, 1, DType.f32, fun _ _ _ _ => 0⟩ : Tensor4).c %
        (⟨1, 1, 0, 0, none, none, 1, 1, 2⟩ : DeconvCfg).group ≠ 0) ∧
    (1 < (⟨1, 1, 0, 0, none, none, 1, 1, 2⟩ : DeconvCfg).group) ∧
    (forward_cpu ⟨1, 1, 0, 0, none, none, 1, 1, 2⟩
        ⟨0, 3, 3, 1, DType.f32, fun _ _ _ _ => 0⟩
        ⟨3, 1, 0, 1, DType.f32, fun _ _ _ _ => 0⟩ none).isErr = false := by
  refine ⟨by decide, by decide, ?_⟩
  rfl

/-- C8 amended.  A forward call with `G > 1`, matching channel counts,
and `C_in % G != 0` fails with a fatal shape error at split time
*provided the call is not fully degenerate*: `x` must have a non-zero
batch/spatial volume, or `W` a non-zero per-group filter volume (with
both volumes zero, numpy's element-count reshape checks trivially pass
and the split succeeds). -/
theorem group_misalignment_split_error (cfg : DeconvCfg) (outh outw : Nat)
    (x W : Tensor4) (b : Option Vec1)
    (hdiv : x.c % cfg.group ≠ 0) (hWn : W.n = x.c)
    (hne : 0 < x.n * x.h * x.w ∨ 0 < W.c * W.h * W.w) :
    (forward_grouped_convolution cfg outh outw x W b).isErr = true := by
  have hkey : cfg.group * (x.c / cfg.group) ≠ x.c := by
    intro h
    have h2 := Nat.mod_add_div x.c cfg.group
    omega
  unfold forward_grouped_convolution
  rcases hne with hx | hW2
  · rw [if_pos]
    · rfl
    · intro heq
      apply hkey
      have h3 : (x.n * x.h * x.w) * x.c =
          (x.n * x.h * x.w) * (cfg.group * (x.c / cfg.group)) := by
        calc (x.n * x.h * x.w) * x.c = x.n * x.c * x.h * x.w := by ring
          _ = x.n * (cfg.group * (x.c / cfg.group)) * x.h * x.w := heq
          _ = (x.n * x.h * x.w) * (cfg.group * (x.c / cfg.group)) := by ring
      exact (Nat.eq_of_mul_eq_mul_left hx h3).symm
  · by_cases c1 : x.n * x.c * x.h * x.w ≠ x.n * (cfg.group * (x.c / cfg.group)) * x.h * x.w
    · rw [if_pos c1]
      rfl
    · rw [if_neg c1, if_pos]
      · rfl
      · intro heq
        apply hkey
        have h3 : x.c * (W.c * W.h * W.w) =
            (cfg.group * (x.c / cfg.group)) * (W.c * W.h * W.w) := by
          calc x.c * (W.c * W.h * W.w) = W.n * W.c * W.h * W.w := by rw [hWn]; ring
            _ = cfg.group * (x.c / cfg.group) * (W.c * (W.h * W.w)) := heq
            _ = (cfg.group * (x.c / cfg.group)) * (W.c * W.h * W.w) := by ring
        exact (Nat.eq_of_mul_eq_mul_right hW2 h3).symm

/-- C8 amended witness: `C_in = 3`, `G = 2`, non-degenerate `1×1`
spatial extent — the split fails. -/
theorem group_misalignment_split_error_witness :
    ((⟨1, 3, 1, 1, DType.f32, fun _ _ _ _ => 0⟩ : Tensor4).c %
        (⟨1, 1, 0, 0, none, none, 1, 1, 2⟩ : DeconvCfg).group ≠ 0) ∧
    ((⟨3, 1, 1, 1, DType.f32, fun _ _ _ _ => 0⟩ : Tensor4).n =
        (⟨1, 3, 1, 1, DType.f32, fun _ _ _ _ => 0⟩ : Tensor4).c) ∧
    (0 < 1 * 1 * 1 ∨ 0 < 1 * 1 * 1) ∧
    (forward_grouped_convolution ⟨1, 1, 0, 0, none, none, 1, 1, 2⟩ 1 1
        ⟨1, 3, 1, 1, DType.f32, fun _ _ _ _ => 0⟩
        ⟨3, 1, 1, 1, DType.f32, fun _ _ _ _ => 0⟩ none).isErr = true :=
  ⟨by decide, rfl, Or.inl (by decide),
   group_misalignment_split_error ⟨1, 1, 0, 0, none, none, 1, 1, 2⟩ 1 1
     ⟨1, 3, 1, 1, DType.f32, fun _ _ _ _ => 0⟩
     ⟨3, 1, 1, 1, DType.f32, fun _ _ _ _ => 0⟩ none
     (by decide) rfl (Or.inl (by decide))⟩

/-! ### Claim C10: the CPU core output keeps `x`'s element type -/

/-- C10.  For every direct-kernel (CPU) forward computation, the element
type of the output equals `x`'s element type — the tensordot result
(whose dtype is the numpy promotion of `W.dtype` and `x.dtype`) is
explicitly cast to `x.dtype` before the scatter-accumulate step, and the
scatter-accumulate and bias-add steps preserve it — even when `W`'s
element type differs from `x`'s. -/
theorem forward_cpu_core_keeps_x_dtype (cfg : DeconvCfg) (outh outw : Nat)
    (x W : Tensor4) (b : Option Vec1) :
    (forward_cpu_core cfg outh outw x W b).dtype = x.dtype := by
  cases b <;> rfl

/-! ### Claim C2: the cover-all resolver -/

/-- C2 counterexample.  The claim states the cover-all flag is true iff
`x.H_in != deconvOutSize(outH, kH, sy, ph, dy)` (and the width
analogue).  For the genuine forward/backward pair with
`H_in = W_in = 3`, `kH = kW = 2`, stride 2, no padding, no dilation, the
resolved output size is `deconvOutSize(3,2,2,0,1) = 6`; the resolver
computes `false` (since `get_conv_outsize 6 2 2 0 false 1 = 3 = H_in`),
but `deconvOutSize(6,2,2,0,1) = 12 ≠ 3`, so the claim's right-hand side
is true and the stated equivalence fails. -/
theorem cover_all_resolver_claim_cex :
    get_deconv_outsize 3 2 2 0 1 = 6 ∧
    ¬ ((set_cover_all ⟨2, 2, 0, 0, none, none, 1, 1, 1⟩ 6 6
          ⟨1, 1, 3, 3, DType.f32, fun _ _ _ _ => 0⟩
          ⟨1, 1, 2, 2, DType.f32, fun _ _ _ _ => 0⟩) = true
        ↔ (((3 : Nat) : Int) ≠ get_deconv_outsize 6 2 2 0 1 ∨
           ((3 : Nat) : Int) ≠ get_deconv_outsize 6 2 2 0 1)) := by
  constructor
  · decide
  · decide

/-- C2 amended.  The cover-all flag computed by the resolver is true iff
`x.H_in` differs from `get_conv_outsize(outH, kH, sy, ph, cover_all=False, dy)`
— the forward-convolution output-size formula in its default
(non-cover-all) mode, not the deconvolution output-size formula — or the
width analogue holds. -/
theorem cover_all_resolver_spec (cfg : DeconvCfg) (outh outw : Nat) (x W : Tensor4) :
    set_cover_all cfg outh outw x W = true ↔
      ((x.h : Int) ≠ get_conv_outsize outh W.h cfg.sy cfg.ph false cfg.dy ∨
       (x.w : Int) ≠ get_conv_outsize outw W.w cfg.sx cfg.pw false cfg.dx) := by
  simp [set_cover_all]

/-! ### Claim C9: the bias type check ignores the bias length -/

/-- C9.  The forward type check treats a rank-1 bias of `x`'s dtype
exactly as if no bias were supplied, whatever its length `L`: the
bias-length-vs-`C_og*group` validation is commented out in the source,
so acceptance is independent of the bias length. -/
theorem bias_check_ignores_length (cfg : DeconvCfg) (xt wt : TypeInfo) (L : Nat) :
    check_type_forward cfg xt wt (some ⟨[L], xt.dtype⟩) =
      check_type_forward cfg xt wt none := by
  simp [check_type_forward]

/-! ### Claim C6: non-positive computed output size is a fatal error -/

/-- C6.  A forward call without an explicit outsize in which either
computed output dimension is ≤ 0 fails with the fatal runtime error of
`_calc_out_size` and produces no output tensor. -/
theorem nonpositive_outsize_error (cfg : DeconvCfg) (x W : Tensor4) (b : Option Vec1)
    (hh : cfg.outh = none) (hw : cfg.outw = none)
    (h : get_deconv_outsize x.h W.h cfg.sy cfg.ph cfg.dy ≤ 0 ∨
         get_deconv_outsize x.w W.w cfg.sx cfg.pw cfg.dx ≤ 0) :
    (forward_cpu cfg x W b).isErr = true := by
  by_cases h1 : get_deconv_outsize x.h W.h cfg.sy cfg.ph cfg.dy ≤ 0
  · have e1 : calc_outh cfg x W =
        Except.error "RuntimeError: Height in the output must be positive." := by
      unfold calc_outh
      rw [hh, if_pos h1]
    unfold forward_cpu calc_out_size
    rw [e1]
    rfl
  · have h2 : get_deconv_outsize x.w W.w cfg.sx cfg.pw cfg.dx ≤ 0 := by
      rcases h with h | h
      · exact absurd h h1
      · exact h
    have e1 : calc_outh cfg x W =
        Except.ok (get_deconv_outsize x.h W.h cfg.sy cfg.ph cfg.dy).toNat := by
      unfold calc_outh
      rw [hh, if_neg h1]
    have e2 : calc_outw cfg x W =
        Except.error "RuntimeError: Width in the output must be positive." := by
      unfold calc_outw
      rw [hw, if_pos h2]
    unfold forward_cpu calc_out_size
    rw [e1, e2]
    rfl

/-- C6 witness: with `1×1` input and kernel, stride 1, padding 5, the
computed height is `1 - 10 = -9 ≤ 0` and the forward call errors. -/
theorem nonpositive_outsize_error_witness :
    ((⟨1, 1, 5, 5, none, none, 1, 1, 1⟩ : DeconvCfg).outh = none) ∧
    ((⟨1, 1, 5, 5, none, none, 1, 1, 1⟩ : DeconvCfg).outw = none) ∧
    (get_deconv_outsize 1 1 1 5 1 ≤ 0 ∨ get_deconv_outsize 1 1 1 5 1 ≤ 0) ∧
    (forward_cpu ⟨1, 1, 5, 5, none, none, 1, 1, 1⟩
        ⟨1, 1, 1, 1, DType.f32, fun _ _ _ _ => 0⟩
        ⟨1, 1, 1, 1, DType.f32, fun _ _ _ _ => 0⟩ none).isErr = true :=
  ⟨rfl, rfl, Or.inl (by decide),
   nonpositive_outsize_error ⟨1, 1, 5, 5, none, none, 1, 1, 1⟩
     ⟨1, 1, 1, 1, DType.f32, fun _ _ _ _ => 0⟩
     ⟨1, 1, 1, 1, DType.f32, fun _ _ _ _ => 0⟩ none rfl rfl (Or.inl (by decide))⟩

/-! ### Claim C4: grouped forward = split-and-concat -/

lemma xSliceFlat_eq_spec (x : Tensor4) (G xCg g : Nat) (hc : x.c = G * xCg) (hg : g < G)
    (n c h w : Nat) (hcb : c < xCg) (hh : h < x.h) (hw : w < x.w) :
    (xSliceFlat x G xCg g).data n c h w = (xSliceSpec x xCg g).data n c h w := by
  show x.flatGet ((((n * G + g) * xCg + c) * x.h + h) * x.w + w) = x.data n (g * xCg + c) h w
  have hidx : (((n * G + g) * xCg + c) * x.h + h) * x.w + w
      = ((n * x.c + (g * xCg + c)) * x.h + h) * x.w + w := by
    rw [hc]; ring
  have hlt : g * xCg + c < x.c := by
    rw [hc]
    have h1 : (g + 1) * xCg ≤ G * xCg := Nat.mul_le_mul_right _ hg
    have h2 : (g + 1) * xCg = g * xCg + xCg := by ring
    omega
  rw [hidx]
  exact x.flatGet_eq n (g * xCg + c) h w hlt hh hw

lemma wSliceFlat_eq_spec (W : Tensor4) (xCg g : Nat)
    (ci co i j : Nat) (hco : co < W.c) (hi : i < W.h) (hj : j < W.w) :
    (wSliceFlat W xCg g).data ci co i j = (wSliceSpec W xCg g).data ci co i j := by
  show W.flatGet ((((g * xCg + ci) * W.c + co) * W.h + i) * W.w + j)
      = W.data (g * xCg + ci) co i j
  exact W.flatGet_eq (g * xCg + ci) co i j hco hi hj

/-- The CPU core only reads its inputs at in-bounds indices, so two
input pairs of the same shapes agreeing there produce the same output
values (same bias on both sides). -/
lemma forward_cpu_core_data_congr (cfg : DeconvCfg) (outh outw : Nat)
    (x1 x2 W1 W2 : Tensor4) (b : Option Vec1)
    (hxc : x1.c = x2.c) (hxh : x1.h = x2.h) (hxw : x1.w = x2.w)
    (hWh : W1.h = W2.h) (hWw : W1.w = W2.w)
    (hx : ∀ n c h w, c < x1.c → h < x1.h → w < x1.w → x1.data n c h w = x2.data n c h w)
    (hW : ∀ a co i j, a < x1.c → co < W1.c → i < W1.h → j < W1.w →
        W1.data a co i j = W2.data a co i j)
    (n co oh ow : Nat) (hco : co < W1.c) :
    (forward_cpu_core cfg outh outw x1 W1 b).data n co oh ow =
      (forward_cpu_core cfg outh outw x2 W2 b).data n co oh ow := by
  have hmain :
      (col2im_cpu (rollaxis3 ((tensordot01 W1 x1).astype x1.dtype))
          cfg.sy cfg.sx cfg.ph cfg.pw outh outw cfg.dy cfg.dx).data n co oh ow =
      (col2im_cpu (rollaxis3 ((tensordot01 W2 x2).astype x2.dtype))
          cfg.sy cfg.sx cfg.ph cfg.pw outh outw cfg.dy cfg.dx).data n co oh ow := by
    unfold col2im_cpu rollaxis3 Tensor6.astype tensordot01
    dsimp only
    rw [← hWh, ← hWw, ← hxh, ← hxw, ← hxc]
    refine Finset.sum_congr rfl fun i hi => ?_
    refine Finset.sum_congr rfl fun j hj => ?_
    refine Finset.sum_congr rfl fun hc2 hhc => ?_
    refine Finset.sum_congr rfl fun wc2 hwc => ?_
    rw [Finset.mem_range] at hi hj hhc hwc
    by_cases hcond : cfg.sy * hc2 + i * cfg.dy = oh + cfg.ph ∧
        cfg.sx * wc2 + j * cfg.dx = ow + cfg.pw
    · rw [if_pos hcond, if_pos hcond]
      refine Finset.sum_congr rfl fun cin hcin => ?_
      rw [Finset.mem_range] at hcin
      rw [hW cin co i j hcin hco hi hj, hx n cin hc2 wc2 hcin hhc hwc]
    · rw [if_neg hcond, if_neg hcond]
  unfold forward_cpu_core
  cases b with
  | none => exact hmain
  | some v =>
    dsimp only
    unfold addBias
    dsimp only
    exact congrArg (fun t => t + v.data co) hmain

/-- C4.  For a valid grouped forward call (`C_in` divisible by `G`,
matching channel counts, well-sized bias), the grouped output equals the
concatenation, along the output-channel axis in group order, of the `G`
independent single-group forward computations applied to the per-group
channel slices of `x`, `W` and `b` (`splitAndConcat`, worded from the
spec). -/
theorem grouped_forward_eq_splitAndConcat (cfg : DeconvCfg) (outh outw : Nat)
    (x W : Tensor4) (b : Option Vec1)
    (hdiv : x.c % cfg.group = 0) (hWn : W.n = x.c)
    (hb : biasLenOk b cfg.group W.c) :
    ∃ y, forward_grouped_convolution cfg outh outw x W b = Except.ok y ∧
      Tensor4.Eq y (splitAndConcat cfg outh outw x W b) := by
  have hc : x.c = cfg.group * (x.c / cfg.group) :=
    (Nat.mul_div_cancel' (Nat.dvd_of_mod_eq_zero hdiv)).symm
  rw [forward_grouped_eq cfg outh outw x W b hdiv hWn hb]
  refine ⟨_, rfl, ?_⟩
  unfold Tensor4.Eq splitAndConcat
  dsimp only
  refine ⟨rfl, rfl, rfl, rfl, rfl, ?_⟩
  intro n hn c hcb h hh w hw
  have hyc : 0 < W.c := by
    rcases Nat.eq_zero_or_pos W.c with h0 | h0
    · rw [h0, Nat.mul_zero] at hcb
      omega
    · exact h0
  have hg : c / W.c < cfg.group := (Nat.div_lt_iff_lt_mul hyc).mpr hcb
  exact forward_cpu_core_data_congr cfg outh outw
    (xSliceFlat x cfg.group (x.c / cfg.group) (c / W.c))
    (xSliceSpec x (x.c / cfg.group) (c / W.c))
    (wSliceFlat W (x.c / cfg.group) (c / W.c))
    (wSliceSpec W (x.c / cfg.group) (c / W.c))
    (Option.map (fun v => bSlice v W.c (c / W.c)) b)
    rfl rfl rfl rfl rfl
    (fun n2 c2 h2 w2 hc2 hh2 hw2 =>
      xSliceFlat_eq_spec x cfg.group (x.c / cfg.group) (c / W.c) hc hg
        n2 c2 h2 w2 hc2 hh2 hw2)
    (fun a co i j _ hco hi hj =>
      wSliceFlat_eq_spec W (x.c / cfg.group) (c / W.c) a co i j hco hi hj)
    n (c % W.c) h w (Nat.mod_lt _ hyc)

/-- C4 witness: `G = 2`, two input channels, one output channel per
group — the grouped forward call succeeds and agrees with the spec's
split-and-concatenate everywhere in bounds. -/
theorem grouped_forward_eq_splitAndConcat_witness :
    ((⟨1, 2, 1, 1, DType.f32, fun _ c _ _ => (c : ℤ) + 1⟩ : Tensor4).c %
        (⟨1, 1, 0, 0, none, none, 1, 1, 2⟩ : DeconvCfg).group = 0) ∧
    ((⟨2, 1, 1, 1, DType.f32, fun ci _ _ _ => (ci : ℤ) + 10⟩ : Tensor4).n =
        (⟨1, 2, 1, 1, DType.f32, fun _ c _ _ => (c : ℤ) + 1⟩ : Tensor4).c) ∧
    (∃ y, forward_grouped_convolution ⟨1, 1, 0, 0, none, none, 1, 1, 2⟩ 1 1
        ⟨1, 2, 1, 1, DType.f32, fun _ c _ _ => (c : ℤ) + 1⟩
        ⟨2, 1, 1, 1, DType.f32, fun ci _ _ _ => (ci : ℤ) + 10⟩ none = Except.ok y ∧
      Tensor4.Eq y (splitAndConcat ⟨1, 1, 0, 0, none, none, 1, 1, 2⟩ 1 1
        ⟨1, 2, 1, 1, DType.f32, fun _ c _ _ => (c : ℤ) + 1⟩
        ⟨2, 1, 1, 1, DType.f32, fun ci _ _ _ => (ci : ℤ) + 10⟩ none)) :=
  ⟨rfl, rfl,
   grouped_forward_eq_splitAndConcat ⟨1, 1, 0, 0, none, none, 1, 1, 2⟩ 1 1
     ⟨1, 2, 1, 1, DType.f32, fun _ c _ _ => (c : ℤ) + 1⟩
     ⟨2, 1, 1, 1, DType.f32, fun ci _ _ _ => (ci : ℤ) + 10⟩ none
     rfl rfl trivial⟩
